import Mathlib

/-!
Verification development for the Trading-System repository.

Shallow embedding of the Python sources:
  * `src/src/alpaca_utils/trading_strategy.py` (signal consensus, rolling buffers)
  * `src/src/alpaca_utils/risk_manager.py`     (ATR, stop/target, sizing, admission control)
  * `src/scripts/triple_factor_day_trader.py`  (portfolio ledger, trailing stop, partial/EOD close)
  * `src/scripts/tcp_server.py`                (timeline construction from CSV rows)
  * `src/scripts/three_strategy_client.py`     (consumer read loop / message framing)

Python floats are modelled as rationals (ℚ), Python ints as ℤ/ℕ; `float // float`
is `Int.floor` of the rational quotient, `int(x)` is truncation toward zero, and
`round(x, n)` is round-half-to-even at `n` decimal digits.  Code that can raise
(`ZeroDivisionError`, `IndexError` on an empty frame) is modelled with `Option`,
`none` standing for the raised exception.
-/

set_option autoImplicit false
set_option maxRecDepth 8000

/-- Python `int(x)` on a float: truncation toward zero. -/
def pyInt (q : ℚ) : ℤ := if 0 ≤ q then ⌊q⌋ else -⌊-q⌋

/-- Nearest integer with ties resolved to the even integer
(the rounding mode of Python's builtin `round`). -/
def roundHalfEven (q : ℚ) : ℤ :=
  let f : ℤ := ⌊q⌋
  let r : ℚ := q - f
  if r < 1/2 then f
  else if 1/2 < r then f + 1
  else if f % 2 = 0 then f else f + 1

/-- Python `round(q, n)`: round half to even at `n` decimal digits. -/
def pyRound (q : ℚ) (n : ℕ) : ℚ := (roundHalfEven (q * 10 ^ n) : ℚ) / 10 ^ n

/-! ## `alpaca_utils/trading_strategy.py` — `TradingStrategy`

A market bar.  Only the fields the embedded code inspects are kept; `vwap` is
optional in the wire schema. -/

structure Bar where
  high : ℚ
  low : ℚ
  close : ℚ
  volume : ℚ
  deriving DecidableEq, Repr

/-- `'BUY'` / `'SELL'` signal strings. -/
inductive Signal where
  | BUY
  | SELL
  deriving DecidableEq, Repr

/-- Line 72: `buy_signals = sum(1 for i in [ind1, ind2, ind3, ind4] if i == 1)`. -/
def buy_signals (i1 i2 i3 i4 : ℤ) : ℕ := [i1, i2, i3, i4].count 1

/-- Line 73: `sell_signals = sum(1 for i in [ind1, ind2, ind3, ind4] if i == -1)`. -/
def sell_signals (i1 i2 i3 i4 : ℤ) : ℕ := [i1, i2, i3, i4].count (-1)

/-- `TradingStrategy.generate_trade_signal` (lines 64–80), with the four
indicator values `calculate_indicators` returns abstracted as the integer
parameters `i1 i2 i3 i4` and the symbol's buffer abstracted by its length. -/
def generate_trade_signal (histLen : ℕ) (i1 i2 i3 i4 : ℤ) : Option Signal :=
  if histLen < 200 then none
  else if 3 ≤ buy_signals i1 i2 i3 i4 then some Signal.BUY
  else if 3 ≤ sell_signals i1 i2 i3 i4 then some Signal.SELL
  else none

/-- `deque(maxlen=300).append` (`trading_strategy.py` line 18/22): append on the
right, evicting the leftmost element when the deque is at capacity. -/
def update_buffer (buf : List Bar) (x : Bar) : List Bar :=
  if 300 ≤ buf.length then buf.drop 1 ++ [x] else buf ++ [x]

/-- `TradingStrategy.update_buffer` on the whole `data_buffers` defaultdict:
only the addressed symbol's deque changes. -/
def update_buffer_state (st : String → List Bar) (symbol : String) (x : Bar) :
    String → List Bar :=
  fun s => if s = symbol then update_buffer (st s) x else st s

/-- A fresh `TradingStrategy` (`defaultdict(lambda: deque(maxlen=300))`) fed a
sequence of `update_buffer(symbol, data_point)` calls. -/
def run_updates (events : List (String × Bar)) : String → List Bar :=
  events.foldl (fun st e => update_buffer_state st e.1 e.2) (fun _ => [])

/-- The subsequence of event payloads addressed to one symbol. -/
def eventsFor (events : List (String × Bar)) (symbol : String) : List Bar :=
  events.filterMap (fun e => if e.1 = symbol then some e.2 else none)

/-! ## `alpaca_utils/risk_manager.py` — `RiskManager`

Configuration from `RiskManager.__init__`.  Two fields are renamed:
`risk_reward` is the source's `risk_reward_ratio` and `max_notional_pct` is the
source's `max_notional_ratio`. -/

structure RiskManager where
  risk_per_trade : ℚ := 1/100
  atr_period : ℚ := 14
  atr_multiplier : ℚ := 1
  risk_reward : ℚ := 2
  max_position_fraction : ℚ := 1/100
  max_open_positions : ℕ := 10
  max_notional_pct : ℚ := 1/2
  deriving DecidableEq, Repr

/-- `account_info` dict: equity, cash, buying power. -/
structure AccountInfo where
  equity : ℚ
  cash : ℚ
  buying_power : ℚ
  deriving DecidableEq, Repr

/-- One entry of the `open_positions` list; only `market_value` is read. -/
structure OpenPosition where
  market_value : ℚ
  deriving DecidableEq, Repr

/-- `compute_atr` lines 35–38: the true-range column.  The first row's
`previous_close` is NaN, and Python's `max` keeps the first argument against
NaN comparisons, so the first true range is `high - low`. -/
def trueRangeList : List Bar → List ℚ
  | [] => []
  | b :: rest => (b.high - b.low) :: trueRangeTail b.close rest
where
  trueRangeTail : ℚ → List Bar → List ℚ
  | _, [] => []
  | prev, b :: rest =>
      max (b.high - b.low) (max |b.high - prev| |b.low - prev|) ::
        trueRangeTail b.close rest

/-- `RiskManager.compute_atr` (lines 32–40): Wilder smoothing
`ewm(alpha=1/atr_period, adjust=False).mean()` of the true ranges, seeded at
the first true range; the last value is returned.  An empty frame raises
(`iloc[-1]` on no rows), modelled as `none`. -/
def RiskManager.compute_atr (rm : RiskManager) (df : List Bar) : Option ℚ :=
  match trueRangeList df with
  | [] => none
  | t :: ts =>
      some (ts.foldl (fun s x => (1 - 1 / rm.atr_period) * s + (1 / rm.atr_period) * x) t)

/-- Lines 93–100: stop loss, risk per share and take profit for each side,
returned as `(stop_loss, risk_per_share, take_profit)`. -/
def riskStopTarget (rm : RiskManager) (atr entry_price : ℚ) (side : Signal) :
    ℚ × ℚ × ℚ :=
  match side with
  | Signal.BUY =>
      let stop_loss := max (entry_price - atr * rm.atr_multiplier) (1/100)
      let risk_per_share := entry_price - stop_loss
      (stop_loss, risk_per_share, entry_price + rm.risk_reward * risk_per_share)
  | Signal.SELL =>
      let stop_loss := entry_price + atr * rm.atr_multiplier
      let risk_per_share := stop_loss - entry_price
      (stop_loss, risk_per_share, entry_price - rm.risk_reward * risk_per_share)

/-- Line 107: `int(risk_amount // risk_per_share)` with
`risk_amount = equity * risk_per_trade`. -/
def quantity_risk_based (rm : RiskManager) (equity risk_per_share : ℚ) : ℤ :=
  ⌊(equity * rm.risk_per_trade) / risk_per_share⌋

/-- Line 112: `int(max_notional // entry_price)` with
`max_notional = available_funds * max_position_fraction`. -/
def quantity_notional_cap (rm : RiskManager) (available_funds entry_price : ℚ) : ℤ :=
  ⌊(available_funds * rm.max_position_fraction) / entry_price⌋

/-- Line 115: `int(cash // entry_price)` for BUY, `999999` for SELL. -/
def quantity_cash_cap (cash entry_price : ℚ) (side : Signal) : ℤ :=
  match side with
  | Signal.BUY => ⌊cash / entry_price⌋
  | Signal.SELL => 999999

/-- Line 110: cash for BUY, buying power for SELL. -/
def available_funds (account_info : AccountInfo) (side : Signal) : ℚ :=
  match side with
  | Signal.BUY => account_info.cash
  | Signal.SELL => account_info.buying_power

/-- `RiskManager.validate_portfolio_risk` (lines 42–62). -/
def RiskManager.validate_portfolio_risk (rm : RiskManager) (account_info : AccountInfo)
    (open_positions : List OpenPosition) (proposed_trade_value : ℚ) : Bool :=
  if rm.max_open_positions ≤ open_positions.length then false
  else if account_info.buying_power * rm.max_notional_pct <
      (open_positions.map (fun p => p.market_value)).sum + proposed_trade_value then false
  else true

/-- The result dict of `calculate_trade_parameters`.  The source rounds
`stop_loss`/`take_profit` to 2 and `atr` to 4 decimal digits on the way out. -/
structure SizingResult where
  quantity : ℤ
  stop_loss : Option ℚ
  take_profit : Option ℚ
  atr : ℚ
  deriving DecidableEq, Repr

/-- Lines 88–130 of `calculate_trade_parameters`, after the ATR has been
computed.  `none` models a raised `ZeroDivisionError`: the source divides by
`risk_per_share` (line 107) and by `entry_price` (lines 112/115) with no
guard.  `np.isnan(atr)` is omitted: for a nonempty frame of (rational) number
fields the true-range column is never NaN.  The invalid-side branch (line
101–103) is unreachable because `side` is restricted to BUY/SELL. -/
def sizeWithATR (rm : RiskManager) (atr entry_price : ℚ) (account_info : AccountInfo)
    (open_positions : List OpenPosition) (side : Signal) : Option SizingResult :=
  if atr < 1/100000 then
    some ⟨0, none, none, pyRound atr 4⟩
  else
    let stt := riskStopTarget rm atr entry_price side
    let stop_loss := stt.1
    let risk_per_share := stt.2.1
    let take_profit := stt.2.2
    if risk_per_share = 0 then none
    else if entry_price = 0 then none
    else
      let quantity_risk := quantity_risk_based rm account_info.equity risk_per_share
      let quantity_notional := quantity_notional_cap rm (available_funds account_info side) entry_price
      let quantity_cash := quantity_cash_cap account_info.cash entry_price side
      let final_quantity := min (min quantity_risk quantity_notional) quantity_cash
      if rm.validate_portfolio_risk account_info open_positions (entry_price * final_quantity) then
        some ⟨final_quantity, some (pyRound stop_loss 2), some (pyRound take_profit 2), pyRound atr 4⟩
      else
        some ⟨0, none, none, pyRound atr 4⟩

/-- `RiskManager.calculate_trade_parameters` (lines 64–130). -/
def RiskManager.calculate_trade_parameters (rm : RiskManager) (df : List Bar)
    (entry_price : ℚ) (account_info : AccountInfo) (open_positions : List OpenPosition)
    (side : Signal) : Option SizingResult :=
  match rm.compute_atr df with
  | none => none
  | some atr => sizeWithATR rm atr entry_price account_info open_positions side

/-! ## `scripts/triple_factor_day_trader.py` — `PortfolioManager` -/

/-- One value of the `positions` dict. -/
structure Position where
  quantity : ℤ
  avg_price : ℚ
  stop_price : ℚ
  take_profit_price : ℚ
  deriving DecidableEq, Repr

/-- One `trade_log` entry.  `realized_pnl` is present (`some`) only on SELL
entries (line 258–265); BUY entries (line 231–237) carry no such key. -/
structure TradeLogEntry where
  timestamp : String
  symbol : String
  action : Signal
  price : ℚ
  quantity : ℤ
  realized_pnl : Option ℚ
  deriving DecidableEq, Repr

/-- The mutable state of `PortfolioManager`.  The `positions` dict is an
insertion-ordered association list, as a Python dict is. -/
structure PortfolioManager where
  cash : ℚ
  positions : List (String × Position)
  trade_log : List TradeLogEntry
  realized_pnl : ℚ
  stop_loss_pct : ℚ := 1/50
  take_profit_pct : ℚ := 3/100
  trailing_stop_buffer : ℚ := 1/50
  deriving DecidableEq, Repr

/-- `PortfolioManager.__init__`. -/
def initPortfolio : PortfolioManager :=
  { cash := 100000, positions := [], trade_log := [], realized_pnl := 0 }

/-- `self.positions[symbol]` lookup (first — and with unique keys the only —
binding for the key). -/
def getPos : List (String × Position) → String → Option Position
  | [], _ => none
  | (k, v) :: rest, s => if k = s then some v else getPos rest s

/-- `self.positions[symbol] = v`: overwrite in place, or append a new key at
the end (Python dict insertion order). -/
def setPos : List (String × Position) → String → Position → List (String × Position)
  | [], s, v => [(s, v)]
  | (k, w) :: rest, s, v =>
      if k = s then (k, v) :: rest else (k, w) :: setPos rest s v

/-- `del self.positions[symbol]` (removes the binding; only called when the
key is present). -/
def delPos : List (String × Position) → String → List (String × Position)
  | [], _ => []
  | (k, w) :: rest, s => if k = s then rest else (k, w) :: delPos rest s

/-- `PortfolioManager._execute_buy` (lines 205–237). -/
def executeBuy (p : PortfolioManager) (symbol : String) (price : ℚ) (quantity : ℤ)
    (timestamp : String) : PortfolioManager :=
  let cost := price * quantity
  let positions' :=
    match getPos p.positions symbol with
    | some pos =>
        let new_qty := pos.quantity + quantity
        let new_avg := (pos.avg_price * pos.quantity + cost) / new_qty
        setPos p.positions symbol
          { quantity := new_qty, avg_price := new_avg,
            stop_price := new_avg * (1 - p.stop_loss_pct),
            take_profit_price := new_avg * (1 + p.take_profit_pct) }
    | none =>
        setPos p.positions symbol
          { quantity := quantity, avg_price := price,
            stop_price := price * (1 - p.stop_loss_pct),
            take_profit_price := price * (1 + p.take_profit_pct) }
  { p with
    cash := p.cash - cost,
    positions := positions',
    trade_log := p.trade_log ++
      [{ timestamp := timestamp, symbol := symbol, action := Signal.BUY,
         price := price, quantity := quantity, realized_pnl := none }] }

/-- `PortfolioManager._execute_sell` (lines 239–265). -/
def executeSell (p : PortfolioManager) (symbol : String) (price : ℚ) (quantity : ℤ)
    (timestamp : String) : PortfolioManager :=
  match getPos p.positions symbol with
  | none => p
  | some pos =>
      if pos.quantity < quantity then p
      else
        let revenue := price * quantity
        let realized_trade_pnl := (price - pos.avg_price) * quantity
        let new_qty := pos.quantity - quantity
        { p with
          realized_pnl := p.realized_pnl + realized_trade_pnl,
          cash := p.cash + revenue,
          positions :=
            if new_qty ≤ 0 then delPos p.positions symbol
            else setPos p.positions symbol { pos with quantity := new_qty },
          trade_log := p.trade_log ++
            [{ timestamp := timestamp, symbol := symbol, action := Signal.SELL,
               price := price, quantity := quantity,
               realized_pnl := some (pyRound realized_trade_pnl 2) }] }

/-- `PortfolioManager.execute_trade` (lines 179–203). -/
def executeTrade (p : PortfolioManager) (symbol : String) (signal : Signal)
    (price : ℚ) (timestamp : String) : PortfolioManager :=
  if signal = Signal.BUY ∧ ∃ pos, getPos p.positions symbol = some pos ∧ 0 < pos.quantity then p
  else
    let max_investment := min (p.cash * (1/10)) 1000
    let quantity := pyInt (max_investment / price)
    if quantity < 1 then p
    else
      match signal with
      | Signal.BUY =>
          if price * quantity ≤ p.cash then executeBuy p symbol price quantity timestamp else p
      | Signal.SELL =>
          match getPos p.positions symbol with
          | some pos =>
              if 0 < pos.quantity then
                let sell_qty := min quantity pos.quantity
                if 0 < sell_qty then executeSell p symbol price sell_qty timestamp else p
              else p
          | none => p

/-- The trailing-stop ratchet of `check_stop_loss_take_profit` (lines 283–288)
for one held position at its current price. -/
def trailingStopUpdate (buffer : ℚ) (pos : Position) (current_price : ℚ) : Position :=
  if pos.avg_price < current_price then
    let new_stop := current_price * (1 - buffer)
    if pos.stop_price < new_stop then { pos with stop_price := new_stop } else pos
  else pos

/-- One valuation tick of `check_stop_loss_take_profit` (lines 277–299) for one
held position: ratchet the trailing stop, then exit (sell all, position
removed — `none`) on stop-loss or take-profit. -/
def stopTakeProfitTick (buffer : ℚ) (pos : Position) (current_price : ℚ) :
    Option Position :=
  let pos' := trailingStopUpdate buffer pos current_price
  if current_price ≤ pos'.stop_price then none
  else if pos'.take_profit_price ≤ current_price then none
  else some pos'

/-- A sequence of valuation ticks applied to one position while it stays open. -/
def runTicks (buffer : ℚ) (pos : Position) (prices : List ℚ) : Option Position :=
  prices.foldl (fun acc price => acc.bind fun q => stopTakeProfitTick buffer q price)
    (some pos)

/-- The loop body of `partial_close` (lines 306–314) for one symbol. -/
def partialStep (fraction : ℚ) (timestamp : String) (acc : PortfolioManager)
    (sym : String) : PortfolioManager :=
  match getPos acc.positions sym with
  | none => acc
  | some pos =>
      if 0 < pos.quantity then
        let qty_to_sell := pyInt ((pos.quantity : ℚ) * fraction)
        if qty_to_sell < 1 then acc
        else executeSell acc sym pos.avg_price qty_to_sell timestamp
      else acc

/-- `PortfolioManager.partial_close` (lines 301–314): iterates over
`list(self.positions.keys())`, selling `int(current_qty * fraction)` of each
position at its own `avg_price` (the reason suffix appended to the timestamp
string is presentational and omitted). -/
def partialClose (p : PortfolioManager) (fraction : ℚ) (timestamp : String) :
    PortfolioManager :=
  (p.positions.map Prod.fst).foldl (partialStep fraction timestamp) p

/-- The loop body of `close_all_positions` (lines 320–323) for one symbol. -/
def eodStep (timestamp : String) (acc : PortfolioManager) (sym : String) :
    PortfolioManager :=
  match getPos acc.positions sym with
  | none => acc
  | some pos => executeSell acc sym pos.avg_price pos.quantity timestamp

/-- `PortfolioManager.close_all_positions` (lines 316–323): sell every
position's full quantity at its own `avg_price`. -/
def closeAllPositions (p : PortfolioManager) (timestamp : String) : PortfolioManager :=
  (p.positions.map Prod.fst).foldl (eodStep timestamp) p

/-- The trade-log entry `close_all_positions` appends for one position. -/
def eodEntry (timestamp : String) (e : String × Position) : TradeLogEntry :=
  { timestamp := timestamp, symbol := e.1, action := Signal.SELL,
    price := e.2.avg_price, quantity := e.2.quantity, realized_pnl := some 0 }

/-- What remains of one position after the `partial_close` loop body: kept
unchanged when the sale is skipped (non-positive quantity, fraction rounding
to less than one share, or an oversell request that `_execute_sell` refuses),
removed when the whole quantity is sold, decremented otherwise. -/
def partialRemain (fraction : ℚ) (e : String × Position) :
    Option (String × Position) :=
  if 0 < e.2.quantity then
    let q := pyInt ((e.2.quantity : ℚ) * fraction)
    if q < 1 then some e
    else if e.2.quantity < q then some e
    else if e.2.quantity - q ≤ 0 then none
    else some (e.1, { e.2 with quantity := e.2.quantity - q })
  else some e

/-- The trade-log entry the `partial_close` loop body appends for one
position, when it sells. -/
def partialEntry (fraction : ℚ) (timestamp : String) (e : String × Position) :
    Option TradeLogEntry :=
  if 0 < e.2.quantity then
    let q := pyInt ((e.2.quantity : ℚ) * fraction)
    if q < 1 then none
    else if e.2.quantity < q then none
    else some { timestamp := timestamp, symbol := e.1, action := Signal.SELL,
                price := e.2.avg_price, quantity := q, realized_pnl := some 0 }
  else none

/-- The cash credited by the `partial_close` loop body for one position. -/
def partialCredit (fraction : ℚ) (e : String × Position) : ℚ :=
  if 0 < e.2.quantity then
    let q := pyInt ((e.2.quantity : ℚ) * fraction)
    if q < 1 then 0
    else if e.2.quantity < q then 0
    else e.2.avg_price * q
  else 0

/-! ## `scripts/tcp_server.py` — `ThreadedServer.sendCSVfile` -/

/-- One data row yielded by `csv.DictReader` (header already consumed).  Only
the `timestamp` key is inspected by the grouping code; the remaining columns
are carried opaquely in `payload`. -/
structure CsvRow where
  timestamp : String
  payload : String
  deriving DecidableEq, Repr

/-- Lines 67–73: insert one row into `data_by_timestamp`, appending to the
existing group or creating a new key at the end (dict insertion order). -/
def timelineAdd : List (String × List CsvRow) → CsvRow → List (String × List CsvRow)
  | [], r => [(r.timestamp, [r])]
  | (t, rs) :: rest, r =>
      if t = r.timestamp then (t, rs ++ [r]) :: rest
      else (t, rs) :: timelineAdd rest r

/-- `ThreadedServer.sendCSVfile` (lines 56–75).  Each element of `files` is the
list of data rows of one CSV file, in file order, exactly as `DictReader`
would yield them; `next(reader)` at line 64 then discards the first of those
rows before the grouping loop runs. -/
def sendCSVfile (files : List (List CsvRow)) : List (String × List CsvRow) :=
  files.foldl (fun m f => (f.drop 1).foldl timelineAdd m) []

/-- The same grouping loop run without the `next(reader)` row drop; used to
state what `sendCSVfile` actually builds its timeline from. -/
def buildTimeline (files : List (List CsvRow)) : List (String × List CsvRow) :=
  files.foldl (fun m f => f.foldl timelineAdd m) []

/-- Membership of a row in some timestamp group of a timeline. -/
def inTimeline (m : List (String × List CsvRow)) (r : CsvRow) : Prop :=
  ∃ t rs, (t, rs) ∈ m ∧ r ∈ rs

/-! ## Consumer read loop (`three_strategy_client.py` lines 243–285 and
`triple_factor_day_trader.py` lines 403–411) -/

/-- State of a scanner deciding whether a byte string is one complete JSON
value: bracket depth outside string literals, whether we are inside a string
literal, whether the previous char was a backslash escape, and whether the
depth ever went negative. -/
structure JsonScan where
  depth : ℤ
  inStr : Bool
  esc : Bool
  ok : Bool
  deriving DecidableEq, Repr

def jsonScanStep (st : JsonScan) (c : Char) : JsonScan :=
  if st.esc then { st with esc := false }
  else if st.inStr then
    if c = '\\' then { st with esc := true }
    else if c = '"' then { st with inStr := false }
    else st
  else if c = '"' then { st with inStr := true }
  else if c = '\x7b' ∨ c = '[' then { st with depth := st.depth + 1 }
  else if c = '\x7d' ∨ c = ']' then
    { st with depth := st.depth - 1, ok := st.ok && decide (0 < st.depth) }
  else st

def isJsonWs (c : Char) : Bool :=
  c = ' ' ∨ c = '\n' ∨ c = '\t' ∨ c = '\r'

/-- Models the success of `json.loads` on chunks drawn from the bar-feed wire
protocol (`tcp_server.py` line 41 sends `json.dumps({...}) + '\n'`): parsing
succeeds exactly on complete messages — brackets balanced outside string
literals, depth never negative, not ending mid-string, and not pure
whitespace. -/
def jsonComplete (s : String) : Bool :=
  let fin := s.data.foldl jsonScanStep ⟨0, false, false, true⟩
  fin.ok && (fin.depth == 0) && !fin.inStr && !fin.esc &&
    s.data.any (fun c => !isJsonWs c)

/-- The consumer loop of `start_client`: each `recv` return value is decoded
and fed to `json.loads` on its own; a chunk that fails to parse is skipped
(`except json.JSONDecodeError: continue`).  Returns the successfully processed
messages, in order. -/
def clientProcessedMessages (chunks : List String) : List String :=
  chunks.filter (fun data => jsonComplete data)

/-- Split a character stream at newline boundaries, keeping the (possibly
empty) trailing piece. -/
def splitNewlines : List Char → String → List String
  | [], cur => [cur]
  | c :: rest, cur =>
      if c = '\n' then cur :: splitNewlines rest (String.mk [])
      else splitNewlines rest (cur.push c)

/-- Modelled from the spec: "Partial network reads must be buffered and
reassembled on message-boundary (e.g., newline) before parsing."  No code in
either client implements this; this definition is the spec's reassembling
consumer, for comparison: concatenate the reads, split at newlines, parse each
complete line. -/
def reassembledMessages (chunks : List String) : List String :=
  (splitNewlines (String.join chunks).data (String.mk [])).filter
    (fun line => jsonComplete line)

/-! ## Concrete instances used by witnesses and counterexamples -/

/-- A `RiskManager()` with all constructor defaults. -/
def rmDefault : RiskManager := {}

/-- `account_info` with equity = cash = buying power = 100000. -/
def acct100k : AccountInfo := { equity := 100000, cash := 100000, buying_power := 100000 }

/-- One bar with `high - low = 2` (so ATR = 2). -/
def dfATR2 : List Bar := [{ high := 2, low := 0, close := 1, volume := 0 }]

/-- One bar with `high - low = 1` (so ATR = 1). -/
def dfATR1 : List Bar := [{ high := 1, low := 0, close := 1, volume := 0 }]

/-- One bar with `high - low = 1/250 = 0.004` (so ATR = 0.004). -/
def dfATR004 : List Bar := [{ high := 1/250, low := 0, close := 0, volume := 0 }]

/-- One bar with `high - low = 1/100000 = 1e-5` (so ATR sits exactly at the
epsilon threshold). -/
def dfATRtiny : List Bar := [{ high := 1/100000, low := 0, close := 0, volume := 0 }]

/-- First half of a wire message split across two `recv` calls. -/
def fragA : String := "\x7b\"timestamp\": \"2024-01-02T09:30:00\", \"data\": ["

/-- Second half of the same wire message (closing bracket and newline). -/
def fragB : String := "]\x7d\n"

/-- The complete message whose halves are `fragA` and `fragB`. -/
def wholeMsg : String := "\x7b\"timestamp\": \"2024-01-02T09:30:00\", \"data\": []\x7d"

/-- A two-position portfolio. -/
def pTwoPositions : PortfolioManager :=
  { cash := 1000,
    positions :=
      [("AAA", { quantity := 10, avg_price := 5, stop_price := 49/10, take_profit_price := 515/100 }),
       ("BBB", { quantity := 4, avg_price := 7, stop_price := 686/100, take_profit_price := 721/100 })],
    trade_log := [], realized_pnl := 0 }

/-! ## Helper lemmas -/

theorem pyRound_zero (n : ℕ) : pyRound 0 n = 0 := by
  simp [pyRound, roundHalfEven]

theorem eventsFor_cons (e : String × Bar) (rest : List (String × Bar)) (s : String) :
    eventsFor (e :: rest) s =
      if e.1 = s then e.2 :: eventsFor rest s else eventsFor rest s := by
  by_cases h : e.1 = s <;> simp [eventsFor, List.filterMap_cons, h]

theorem run_updates_apply (events : List (String × Bar)) (symbol : String) :
    run_updates events symbol =
      (eventsFor events symbol).foldl update_buffer [] := by
  suffices h : ∀ (st : String → List Bar),
      (events.foldl (fun st e => update_buffer_state st e.1 e.2) st) symbol =
        (eventsFor events symbol).foldl update_buffer (st symbol) from h _
  induction events with
  | nil => intro st; simp [eventsFor]
  | cons e rest ih =>
    intro st
    rw [List.foldl_cons, ih, eventsFor_cons]
    by_cases h : e.1 = symbol
    · rw [if_pos h, List.foldl_cons]
      simp [update_buffer_state, h]
    · rw [if_neg h]
      simp only [update_buffer_state]
      rw [if_neg (fun hs => h hs.symm)]

theorem foldl_update_buffer_eq_drop (xs : List Bar) :
    xs.foldl update_buffer [] = xs.drop (xs.length - 300) := by
  induction xs using List.reverseRecOn with
  | nil => simp
  | append_singleton xs x ih =>
    rw [List.foldl_append, List.foldl_cons, List.foldl_nil, ih]
    by_cases h : xs.length < 300
    · have h0 : xs.length - 300 = 0 := by omega
      have hnot : ¬ 300 ≤ (xs.drop (xs.length - 300)).length := by
        simp only [List.length_drop]
        omega
      simp only [update_buffer, if_neg hnot]
      have h1 : (xs ++ [x]).length - 300 = 0 := by
        simp only [List.length_append, List.length_cons, List.length_nil]
        omega
      rw [h0, List.drop_zero, h1, List.drop_zero]
    · push_neg at h
      have h300 : 300 ≤ (xs.drop (xs.length - 300)).length := by
        simp only [List.length_drop]
        omega
      simp only [update_buffer, if_pos h300]
      rw [List.drop_drop]
      have hle : xs.length + 1 - 300 ≤ xs.length := by omega
      have hlen : (xs ++ [x]).length - 300 = xs.length + 1 - 300 := by
        simp only [List.length_append, List.length_cons, List.length_nil]
      rw [hlen, List.drop_append_of_le_length hle]
      congr 2
      omega

/-! ## Claim C1 — consensus signal -/

theorem count_one_neg_le_list (l : List ℤ) : l.count 1 + l.count (-1) ≤ l.length := by
  induction l with
  | nil => simp
  | cons x xs ih =>
    simp only [List.count_cons, List.length_cons, beq_iff_eq]
    by_cases h1 : x = 1
    · subst h1
      norm_num
      omega
    · by_cases h2 : x = -1
      · subst h2
        norm_num
        omega
      · simp [h1, h2]
        omega

theorem count_one_neg_le (i1 i2 i3 i4 : ℤ) :
    buy_signals i1 i2 i3 i4 + sell_signals i1 i2 i3 i4 ≤ 4 := by
  have h := count_one_neg_le_list [i1, i2, i3, i4]
  simpa [buy_signals, sell_signals] using h

/-- C1: with at least the warm-up threshold of 200 bars of history, the signal
is BUY exactly when at least 3 of the 4 indicator votes are `+1`, SELL exactly
when at least 3 are `-1`, and NONE otherwise (BUY and SELL are mutually
exclusive because a single value is returned); below 200 bars the signal is
NONE. -/
theorem claim_C1 (histLen : ℕ) (i1 i2 i3 i4 : ℤ) :
    (histLen < 200 → generate_trade_signal histLen i1 i2 i3 i4 = none) ∧
    (200 ≤ histLen →
      (generate_trade_signal histLen i1 i2 i3 i4 = some Signal.BUY ↔
          3 ≤ buy_signals i1 i2 i3 i4) ∧
      (generate_trade_signal histLen i1 i2 i3 i4 = some Signal.SELL ↔
          3 ≤ sell_signals i1 i2 i3 i4) ∧
      (generate_trade_signal histLen i1 i2 i3 i4 = none ↔
          buy_signals i1 i2 i3 i4 < 3 ∧ sell_signals i1 i2 i3 i4 < 3)) := by
  have hsum := count_one_neg_le i1 i2 i3 i4
  constructor
  · intro h
    simp [generate_trade_signal, h]
  · intro h
    have hn : ¬ histLen < 200 := by omega
    by_cases hb : 3 ≤ buy_signals i1 i2 i3 i4
    · have hs : ¬ 3 ≤ sell_signals i1 i2 i3 i4 := by omega
      refine ⟨?_, ?_, ?_⟩ <;> simp [generate_trade_signal, hn, hb, hs] <;> omega
    · by_cases hs : 3 ≤ sell_signals i1 i2 i3 i4
      · refine ⟨?_, ?_, ?_⟩ <;> simp [generate_trade_signal, hn, hb, hs] <;> omega
      · refine ⟨?_, ?_, ?_⟩ <;> simp [generate_trade_signal, hn, hb, hs] <;> omega

theorem claim_C1_witness :
    generate_trade_signal 250 1 1 1 0 = some Signal.BUY ∧
    generate_trade_signal 250 (-1) (-1) (-1) 1 = some Signal.SELL ∧
    generate_trade_signal 250 1 1 (-1) (-1) = none ∧
    generate_trade_signal 100 1 1 1 1 = none :=
  ⟨((claim_C1 250 1 1 1 0).2 (by norm_num)).1.mpr (by decide),
   ((claim_C1 250 (-1) (-1) (-1) 1).2 (by norm_num)).2.1.mpr (by decide),
   ((claim_C1 250 1 1 (-1) (-1)).2 (by norm_num)).2.2.mpr (by decide),
   (claim_C1 100 1 1 1 1).1 (by norm_num)⟩

/-! ## Claim C7 — bounded FIFO history buffer -/

/-- C7: for every symbol and every sequence of `update_buffer` calls, that
symbol's buffer is exactly the last (at most) 300 bars sent to it — so its
length never exceeds 300 — and an update landing on a full buffer evicts
exactly the oldest bar (FIFO). -/
theorem claim_C7 (events : List (String × Bar)) (symbol : String) :
    (run_updates events symbol).length ≤ 300 ∧
    run_updates events symbol =
      (eventsFor events symbol).drop ((eventsFor events symbol).length - 300) ∧
    (∀ (buf : List Bar) (x : Bar), buf.length = 300 →
      update_buffer buf x = buf.drop 1 ++ [x]) := by
  have hrun : run_updates events symbol =
      (eventsFor events symbol).drop ((eventsFor events symbol).length - 300) := by
    rw [run_updates_apply, foldl_update_buffer_eq_drop]
  refine ⟨?_, hrun, ?_⟩
  · rw [hrun]
    simp only [List.length_drop]
    omega
  · intro buf x hlen
    rw [update_buffer, if_pos (by omega)]

theorem claim_C7_witness :
    update_buffer (List.replicate 300 (Bar.mk 1 1 1 1)) (Bar.mk 2 2 2 2) =
      (List.replicate 300 (Bar.mk 1 1 1 1)).drop 1 ++ [Bar.mk 2 2 2 2] :=
  (claim_C7 [] ("AAPL")).2.2 (List.replicate 300 (Bar.mk 1 1 1 1)) (Bar.mk 2 2 2 2)
    (by simp)

/-! ## Claim C5 — trailing-stop ratchet is monotone -/

theorem trailingStopUpdate_mono (buffer : ℚ) (pos : Position) (price : ℚ) :
    pos.stop_price ≤ (trailingStopUpdate buffer pos price).stop_price := by
  by_cases h1 : pos.avg_price < price
  · by_cases h2 : pos.stop_price < price * (1 - buffer)
    · simp only [trailingStopUpdate, if_pos h1, if_pos h2]
      exact le_of_lt h2
    · simp only [trailingStopUpdate, if_pos h1, if_neg h2]
      exact le_refl _
  · simp only [trailingStopUpdate, if_neg h1]
    exact le_refl _

theorem stopTakeProfitTick_mono (buffer : ℚ) (pos : Position) (price : ℚ)
    (pos' : Position) (h : stopTakeProfitTick buffer pos price = some pos') :
    pos.stop_price ≤ pos'.stop_price := by
  unfold stopTakeProfitTick at h
  dsimp only at h
  by_cases h1 : price ≤ (trailingStopUpdate buffer pos price).stop_price
  · rw [if_pos h1] at h
    exact Option.noConfusion h
  · rw [if_neg h1] at h
    by_cases h2 : (trailingStopUpdate buffer pos price).take_profit_price ≤ price
    · rw [if_pos h2] at h
      exact Option.noConfusion h
    · rw [if_neg h2] at h
      injection h with h
      rw [← h]
      exact trailingStopUpdate_mono buffer pos price

theorem runTicks_aux_none (buffer : ℚ) (prices : List ℚ) :
    (prices.foldl (fun acc price => acc.bind fun q => stopTakeProfitTick buffer q price)
      none) = none := by
  induction prices <;> simp_all

theorem runTicks_mono (buffer : ℚ) :
    ∀ (prices : List ℚ) (pos pos' : Position),
      runTicks buffer pos prices = some pos' → pos.stop_price ≤ pos'.stop_price := by
  intro prices
  induction prices with
  | nil =>
    intro pos pos' h
    simp only [runTicks, List.foldl_nil, Option.some.injEq] at h
    subst h
    exact le_refl _
  | cons pr ps ih =>
    intro pos pos' h
    rw [runTicks, List.foldl_cons] at h
    have hb : ((some pos).bind fun q => stopTakeProfitTick buffer q pr) =
        stopTakeProfitTick buffer pos pr := rfl
    rw [hb] at h
    cases htick : stopTakeProfitTick buffer pos pr with
    | none =>
      rw [htick, runTicks_aux_none] at h
      exact absurd h (by simp)
    | some q =>
      rw [htick] at h
      exact le_trans (stopTakeProfitTick_mono buffer pos pr q htick) (ih q pos' h)

/-- C5: for an open long position the stop price never decreases: the per-tick
ratchet only ever replaces the stop with `current_price * (1 - trailingBuffer)`
and only when that value is strictly greater than the current stop, and across
any sequence of valuation ticks that the position survives, its stop price is
monotonically non-decreasing. -/
theorem claim_C5 (buffer : ℚ) (pos : Position) (price : ℚ) (prices : List ℚ) :
    pos.stop_price ≤ (trailingStopUpdate buffer pos price).stop_price ∧
    ((trailingStopUpdate buffer pos price).stop_price ≠ pos.stop_price →
      (trailingStopUpdate buffer pos price).stop_price = price * (1 - buffer) ∧
      pos.stop_price < price * (1 - buffer)) ∧
    (∀ pos', runTicks buffer pos prices = some pos' →
      pos.stop_price ≤ pos'.stop_price) := by
  refine ⟨trailingStopUpdate_mono buffer pos price, ?_, ?_⟩
  · intro hne
    by_cases h1 : pos.avg_price < price
    · by_cases h2 : pos.stop_price < price * (1 - buffer)
      · constructor
        · simp [trailingStopUpdate, h1, h2]
        · exact h2
      · simp [trailingStopUpdate, h1, h2] at hne
    · simp [trailingStopUpdate, h1] at hne
  · intro pos' h
    exact runTicks_mono buffer prices pos pos' h

theorem claim_C5_witness :
    (Position.mk 10 100 98 110).stop_price ≤
      (trailingStopUpdate (1/50) (Position.mk 10 100 98 110) 101).stop_price ∧
    (Position.mk 10 100 98 110).stop_price ≤ (Position.mk 10 100 (4949/50) 110).stop_price :=
  ⟨(claim_C5 (1/50) (Position.mk 10 100 98 110) 101 []).1,
   (claim_C5 (1/50) (Position.mk 10 100 98 110) 101 [101]).2.2
     (Position.mk 10 100 (4949/50) 110)
     (by norm_num [runTicks, stopTakeProfitTick, trailingStopUpdate])⟩

/-! ## Claim C9 — the bar-feed server drops the first data row of each file -/

theorem inTimeline_cons (t : String) (rs : List CsvRow)
    (rest : List (String × List CsvRow)) (r : CsvRow) :
    inTimeline ((t, rs) :: rest) r ↔ r ∈ rs ∨ inTimeline rest r := by
  constructor
  · rintro ⟨t', rs', h1, h2⟩
    rcases List.mem_cons.mp h1 with h | h
    · rw [Prod.mk.injEq] at h
      left
      rw [← h.2]
      exact h2
    · right
      exact ⟨t', rs', h, h2⟩
  · rintro (h | ⟨t', rs', h1, h2⟩)
    · exact ⟨t, rs, List.mem_cons_self _ _, h⟩
    · exact ⟨t', rs', List.mem_cons_of_mem _ h1, h2⟩

theorem inTimeline_timelineAdd (m : List (String × List CsvRow)) (x r : CsvRow) :
    inTimeline (timelineAdd m x) r ↔ inTimeline m r ∨ r = x := by
  induction m with
  | nil =>
    simp only [timelineAdd, inTimeline]
    constructor
    · rintro ⟨t, rs, h1, h2⟩
      rcases List.mem_singleton.mp h1 with h
      rw [Prod.mk.injEq] at h
      rw [h.2] at h2
      right
      exact List.mem_singleton.mp h2
    · rintro (⟨t, rs, h, _⟩ | h)
      · exact absurd h (List.not_mem_nil _)
      · exact ⟨x.timestamp, [x], List.mem_singleton_self _, by rw [h]; exact List.mem_singleton_self _⟩
  | cons p rest ih =>
    obtain ⟨t, rs⟩ := p
    by_cases h : t = x.timestamp
    · have hadd : timelineAdd ((t, rs) :: rest) x = (t, rs ++ [x]) :: rest := by
        simp [timelineAdd, h]
      rw [hadd, inTimeline_cons, inTimeline_cons]
      simp only [List.mem_append, List.mem_singleton]
      tauto
    · have hadd : timelineAdd ((t, rs) :: rest) x = (t, rs) :: timelineAdd rest x := by
        simp [timelineAdd, h]
      rw [hadd, inTimeline_cons, ih, inTimeline_cons]
      tauto

theorem inTimeline_foldl (rows : List CsvRow) :
    ∀ (m : List (String × List CsvRow)) (r : CsvRow),
      inTimeline (rows.foldl timelineAdd m) r ↔ inTimeline m r ∨ r ∈ rows := by
  induction rows with
  | nil => simp
  | cons a rows ih =>
    intro m r
    rw [List.foldl_cons, ih, inTimeline_timelineAdd]
    simp only [List.mem_cons]
    tauto

theorem inTimeline_files (files : List (List CsvRow)) :
    ∀ (m0 : List (String × List CsvRow)) (r : CsvRow),
      inTimeline (files.foldl (fun m f => (f.drop 1).foldl timelineAdd m) m0) r ↔
        inTimeline m0 r ∨ ∃ f ∈ files, r ∈ f.drop 1 := by
  induction files with
  | nil => simp
  | cons f fs ih =>
    intro m0 r
    rw [List.foldl_cons, ih, inTimeline_foldl]
    simp only [List.mem_cons]
    constructor
    · rintro ((h | h) | ⟨g, hg, h⟩)
      · exact Or.inl h
      · exact Or.inr ⟨f, Or.inl rfl, h⟩
      · exact Or.inr ⟨g, Or.inr hg, h⟩
    · rintro (h | ⟨g, (hg | hg), h⟩)
      · exact Or.inl (Or.inl h)
      · exact Or.inl (Or.inr (hg ▸ h))
      · exact Or.inr ⟨g, hg, h⟩

/-- C9: the server's timeline is built from every file with its first data row
removed (`DictReader` consumes the header, `next(reader)` then drops a data
row): a row reaches some timestamp group iff it occurs past the first row of
some file, and a file's first data row, unless it recurs later, is in no
group. -/
theorem claim_C9 (files : List (List CsvRow)) :
    sendCSVfile files = buildTimeline (files.map (fun f => f.drop 1)) ∧
    (∀ r : CsvRow, inTimeline (sendCSVfile files) r ↔ ∃ f ∈ files, r ∈ f.drop 1) ∧
    (∀ f ∈ files, ∀ (r0 : CsvRow) (rest : List CsvRow), f = r0 :: rest →
      (¬ ∃ g ∈ files, r0 ∈ g.drop 1) → ¬ inTimeline (sendCSVfile files) r0) := by
  refine ⟨?_, ?_, ?_⟩
  · rw [buildTimeline, List.foldl_map]
    rfl
  · intro r
    rw [sendCSVfile, inTimeline_files]
    simp [inTimeline]
  · intro f hf r0 rest hfr hnot hmem
    rw [sendCSVfile, inTimeline_files] at hmem
    rcases hmem with h | h
    · simp [inTimeline] at h
    · exact hnot h

theorem claim_C9_witness :
    ¬ inTimeline
        (sendCSVfile [[CsvRow.mk ("09:30") ("AAPL,100"), CsvRow.mk ("09:45") ("AAPL,101")]])
        (CsvRow.mk ("09:30") ("AAPL,100")) :=
  (claim_C9 [[CsvRow.mk ("09:30") ("AAPL,100"), CsvRow.mk ("09:45") ("AAPL,101")]]).2.2
    [CsvRow.mk ("09:30") ("AAPL,100"), CsvRow.mk ("09:45") ("AAPL,101")] (by simp)
    (CsvRow.mk ("09:30") ("AAPL,100")) [CsvRow.mk ("09:45") ("AAPL,101")] rfl (by decide)

/-! ## Claim C8 — the consumers do not reassemble split messages -/

/-- C8 (the code violates it): a well-formed newline-terminated message split
across two `recv` reads is not reassembled — both fragments fail `json.loads`
and are skipped as malformed, so no message is processed — whereas the
buffering consumer the spec demands would reassemble at the newline boundary
and process the message. -/
theorem claim_C8 :
    clientProcessedMessages [fragA, fragB] = [] ∧
    jsonComplete fragA = false ∧
    jsonComplete fragB = false ∧
    jsonComplete (fragA ++ fragB) = true ∧
    reassembledMessages [fragA, fragB] = [wholeMsg] := by
  refine ⟨by decide, by decide, by decide, by decide, by decide⟩

/-! ## Claims C2–C4 — the risk sizer -/

theorem sizeWithATR_success (rm : RiskManager) (atr entry_price : ℚ)
    (account_info : AccountInfo) (open_positions : List OpenPosition) (side : Signal)
    (r : SizingResult)
    (h : sizeWithATR rm atr entry_price account_info open_positions side = some r)
    (hs : r.stop_loss.isSome) :
    ¬ atr < 1/100000 ∧
    (riskStopTarget rm atr entry_price side).2.1 ≠ 0 ∧
    entry_price ≠ 0 ∧
    r = { quantity :=
            min (min (quantity_risk_based rm account_info.equity
                        (riskStopTarget rm atr entry_price side).2.1)
                     (quantity_notional_cap rm (available_funds account_info side) entry_price))
                (quantity_cash_cap account_info.cash entry_price side),
          stop_loss := some (pyRound (riskStopTarget rm atr entry_price side).1 2),
          take_profit := some (pyRound (riskStopTarget rm atr entry_price side).2.2 2),
          atr := pyRound atr 4 } := by
  unfold sizeWithATR at h
  dsimp only at h
  by_cases h1 : atr < 1/100000
  · rw [if_pos h1] at h
    injection h with h5
    rw [← h5] at hs
    simp at hs
  · rw [if_neg h1] at h
    by_cases h2 : (riskStopTarget rm atr entry_price side).2.1 = 0
    · rw [if_pos h2] at h
      exact Option.noConfusion h
    · rw [if_neg h2] at h
      by_cases h3 : entry_price = 0
      · rw [if_pos h3] at h
        exact Option.noConfusion h
      · rw [if_neg h3] at h
        by_cases h4 : rm.validate_portfolio_risk account_info open_positions
            (entry_price *
              ((min (min (quantity_risk_based rm account_info.equity
                            (riskStopTarget rm atr entry_price side).2.1)
                         (quantity_notional_cap rm (available_funds account_info side)
                            entry_price))
                    (quantity_cash_cap account_info.cash entry_price side) : ℤ) : ℚ)) = true
        · rw [if_pos h4] at h
          injection h with h5
          exact ⟨h1, h2, h3, h5.symm⟩
        · rw [if_neg h4] at h
          injection h with h5
          rw [← h5] at hs
          simp at hs

/-- C2 (amended): whenever the sizer accepts a trade (the returned dict's
stop/target are set), the quantity is exactly the minimum of riskBasedQty,
notionalCapQty and cashCapQty (the cash cap is only binding for BUY; for SELL
it is the constant 999999), hence at most each candidate; it is moreover
non-negative provided the configuration fractions, equity, cash and buying
power are non-negative, the entry price is positive and the risk per share is
positive — without the last condition the quantity can be negative (see the
counterexample). -/
theorem claim_C2 (rm : RiskManager) (df : List Bar) (entry_price : ℚ)
    (account_info : AccountInfo) (open_positions : List OpenPosition) (side : Signal)
    (atr : ℚ) (r : SizingResult)
    (hatr : rm.compute_atr df = some atr)
    (h : rm.calculate_trade_parameters df entry_price account_info open_positions side = some r)
    (hs : r.stop_loss.isSome) :
    r.quantity =
      min (min (quantity_risk_based rm account_info.equity
                  (riskStopTarget rm atr entry_price side).2.1)
               (quantity_notional_cap rm (available_funds account_info side) entry_price))
          (quantity_cash_cap account_info.cash entry_price side) ∧
    r.quantity ≤ quantity_risk_based rm account_info.equity
                  (riskStopTarget rm atr entry_price side).2.1 ∧
    r.quantity ≤ quantity_notional_cap rm (available_funds account_info side) entry_price ∧
    r.quantity ≤ quantity_cash_cap account_info.cash entry_price side ∧
    (0 ≤ rm.risk_per_trade → 0 ≤ rm.max_position_fraction →
      0 ≤ account_info.equity → 0 ≤ account_info.cash → 0 ≤ account_info.buying_power →
      0 < entry_price → 0 < (riskStopTarget rm atr entry_price side).2.1 →
      0 ≤ r.quantity) := by
  rw [RiskManager.calculate_trade_parameters, hatr] at h
  obtain ⟨h1, h2, h3, rfl⟩ :=
    sizeWithATR_success rm atr entry_price account_info open_positions side r h hs
  refine ⟨rfl, ?_, ?_, ?_, ?_⟩
  · exact le_trans (min_le_left _ _) (min_le_left _ _)
  · exact le_trans (min_le_left _ _) (min_le_right _ _)
  · exact min_le_right _ _
  · intro hrpt hmpf hequity hcash hbp hentry hrps
    refine le_min (le_min ?_ ?_) ?_
    · exact Int.floor_nonneg.mpr (div_nonneg (mul_nonneg hequity hrpt) (le_of_lt hrps))
    · have havail : 0 ≤ available_funds account_info side := by
        cases side
        · exact hcash
        · exact hbp
      exact Int.floor_nonneg.mpr (div_nonneg (mul_nonneg havail hmpf) (le_of_lt hentry))
    · cases side
      · exact Int.floor_nonneg.mpr (div_nonneg hcash (le_of_lt hentry))
      · norm_num [quantity_cash_cap]

theorem claim_C2_witness :
    (SizingResult.mk 10 (some 98) (some 104) 2).quantity =
      min (min (quantity_risk_based rmDefault acct100k.equity
                  (riskStopTarget rmDefault 2 100 Signal.BUY).2.1)
               (quantity_notional_cap rmDefault (available_funds acct100k Signal.BUY) 100))
          (quantity_cash_cap acct100k.cash 100 Signal.BUY) ∧
    (0 : ℤ) ≤ (SizingResult.mk 10 (some 98) (some 104) 2).quantity := by
  have h := claim_C2 rmDefault dfATR2 100 acct100k [] Signal.BUY 2
    (SizingResult.mk 10 (some 98) (some 104) 2)
    (by norm_num [RiskManager.compute_atr, trueRangeList, trueRangeList.trueRangeTail, dfATR2])
    (by norm_num [RiskManager.calculate_trade_parameters, RiskManager.compute_atr,
          trueRangeList, trueRangeList.trueRangeTail, dfATR2, sizeWithATR, riskStopTarget, quantity_risk_based,
          quantity_notional_cap, quantity_cash_cap, available_funds,
          RiskManager.validate_portfolio_risk, pyRound, roundHalfEven, rmDefault,
          acct100k, max_def, min_def])
    (by norm_num)
  exact ⟨h.1, h.2.2.2.2 (by norm_num [rmDefault]) (by norm_num [rmDefault])
    (by norm_num [acct100k]) (by norm_num [acct100k]) (by norm_num [acct100k])
    (by norm_num) (by norm_num [riskStopTarget, rmDefault, max_def])⟩

/-- C2 counterexample: with entry price 0.004 (below the 0.01 stop floor) the
risk per share is negative and the accepted trade's quantity is negative —
refuting the claim's unconditional "quantity ≥ 0". -/
theorem claim_C2_counterexample :
    rmDefault.calculate_trade_parameters dfATR1 (1/250) acct100k [] Signal.BUY =
      some { quantity := -166667, stop_loss := some (1/100),
             take_profit := some (-1/100), atr := 1 } ∧
    (-166667 : ℤ) < 0 := by
  constructor
  · norm_num [RiskManager.calculate_trade_parameters, RiskManager.compute_atr,
      trueRangeList, trueRangeList.trueRangeTail, dfATR1, sizeWithATR, riskStopTarget, quantity_risk_based,
      quantity_notional_cap, quantity_cash_cap, available_funds,
      RiskManager.validate_portfolio_risk, pyRound, roundHalfEven, rmDefault,
      acct100k, max_def, min_def]
  · norm_num

/-- C3 (amended): the rejection paths that exist — ATR below epsilon, and
portfolio admission control failing — return quantity 0 with null stop/target
without signalling an error; but there is no riskPerShare check: a zero
riskPerShare makes the sizer raise `ZeroDivisionError` (modelled `none`), and
a positive riskPerShare at or below epsilon is sized normally and can return a
positive quantity (see the counterexample). -/
theorem claim_C3 (rm : RiskManager) (df : List Bar) (entry_price : ℚ)
    (account_info : AccountInfo) (open_positions : List OpenPosition) (side : Signal)
    (atr : ℚ) (hatr : rm.compute_atr df = some atr) :
    (atr < 1/100000 →
      rm.calculate_trade_parameters df entry_price account_info open_positions side =
        some { quantity := 0, stop_loss := none, take_profit := none,
               atr := pyRound atr 4 }) ∧
    (¬ atr < 1/100000 →
      (riskStopTarget rm atr entry_price side).2.1 ≠ 0 →
      entry_price ≠ 0 →
      rm.validate_portfolio_risk account_info open_positions
        (entry_price *
          ((min (min (quantity_risk_based rm account_info.equity
                        (riskStopTarget rm atr entry_price side).2.1)
                     (quantity_notional_cap rm (available_funds account_info side)
                        entry_price))
                (quantity_cash_cap account_info.cash entry_price side) : ℤ) : ℚ)) = false →
      rm.calculate_trade_parameters df entry_price account_info open_positions side =
        some { quantity := 0, stop_loss := none, take_profit := none,
               atr := pyRound atr 4 }) ∧
    (¬ atr < 1/100000 →
      (riskStopTarget rm atr entry_price side).2.1 = 0 →
      rm.calculate_trade_parameters df entry_price account_info open_positions side =
        none) := by
  rw [RiskManager.calculate_trade_parameters, hatr]
  unfold sizeWithATR
  dsimp only
  refine ⟨?_, ?_, ?_⟩
  · intro h1
    rw [if_pos h1]
  · intro h1 h2 h3 h4
    rw [if_neg h1, if_neg h2, if_neg h3, if_neg (by rw [h4]; exact Bool.false_ne_true)]
  · intro h1 h2
    rw [if_neg h1, if_pos h2]

theorem claim_C3_witness :
    rmDefault.calculate_trade_parameters [Bar.mk 0 0 0 0] 100 acct100k [] Signal.BUY =
      some { quantity := 0, stop_loss := none, take_profit := none,
             atr := pyRound 0 4 } :=
  (claim_C3 rmDefault [Bar.mk 0 0 0 0] 100 acct100k [] Signal.BUY 0
    (by norm_num [RiskManager.compute_atr, trueRangeList,
      trueRangeList.trueRangeTail])).1 (by norm_num)

/-- C3 counterexample: ATR exactly at epsilon (1e-5) passes the ATR gate, the
resulting riskPerShare is `1e-5 ≤ epsilon`, yet the sizer returns quantity 10,
not 0 — the claimed riskPerShare rejection path does not exist. -/
theorem claim_C3_counterexample :
    (riskStopTarget rmDefault (1/100000) 100 Signal.BUY).2.1 = 1/100000 ∧
    rmDefault.calculate_trade_parameters dfATRtiny 100 acct100k [] Signal.BUY =
      some { quantity := 10, stop_loss := some 100, take_profit := some 100,
             atr := 0 } ∧
    (10 : ℤ) ≠ 0 := by
  refine ⟨?_, ?_, by norm_num⟩
  · norm_num [riskStopTarget, rmDefault, max_def]
  · norm_num [RiskManager.calculate_trade_parameters, RiskManager.compute_atr,
      trueRangeList, trueRangeList.trueRangeTail, dfATRtiny, sizeWithATR,
      riskStopTarget, quantity_risk_based, quantity_notional_cap, quantity_cash_cap,
      available_funds, RiskManager.validate_portfolio_risk, pyRound, roundHalfEven,
      rmDefault, acct100k, max_def, min_def]

/-- C4 (amended): at entry 100, ATR 2, multiplier 1, reward ratio 2 the BUY
sizer returns stop 98 and target 104 exactly; in general the returned stop and
target are `max(entry − atr·mult, 0.01)` and `entry + reward·riskPerShare`
rounded half-even to 2 decimal digits (so they equal the raw formulas exactly
when those are representable at 2 decimals, and differ otherwise — see the
counterexample). -/
theorem claim_C4 :
    rmDefault.calculate_trade_parameters dfATR2 100 acct100k [] Signal.BUY =
      some { quantity := 10, stop_loss := some 98, take_profit := some 104,
             atr := 2 } ∧
    (∀ (rm : RiskManager) (df : List Bar) (entry_price : ℚ)
        (account_info : AccountInfo) (open_positions : List OpenPosition)
        (atr : ℚ) (r : SizingResult),
      rm.compute_atr df = some atr →
      rm.calculate_trade_parameters df entry_price account_info open_positions
        Signal.BUY = some r →
      r.stop_loss.isSome →
      r.stop_loss =
        some (pyRound (max (entry_price - atr * rm.atr_multiplier) (1/100)) 2) ∧
      r.take_profit =
        some (pyRound (entry_price + rm.risk_reward *
          (entry_price - max (entry_price - atr * rm.atr_multiplier) (1/100))) 2)) := by
  constructor
  · norm_num [RiskManager.calculate_trade_parameters, RiskManager.compute_atr,
      trueRangeList, trueRangeList.trueRangeTail, dfATR2, sizeWithATR,
      riskStopTarget, quantity_risk_based, quantity_notional_cap, quantity_cash_cap,
      available_funds, RiskManager.validate_portfolio_risk, pyRound, roundHalfEven,
      rmDefault, acct100k, max_def, min_def]
  · intro rm df entry_price account_info open_positions atr r hatr h hs
    rw [RiskManager.calculate_trade_parameters, hatr] at h
    obtain ⟨-, -, -, rfl⟩ :=
      sizeWithATR_success rm atr entry_price account_info open_positions Signal.BUY r h hs
    exact ⟨rfl, rfl⟩

theorem claim_C4_witness :
    (SizingResult.mk 10 (some 98) (some 104) 2).stop_loss =
      some (pyRound (max ((100 : ℚ) - 2 * rmDefault.atr_multiplier) (1/100)) 2) ∧
    (SizingResult.mk 10 (some 98) (some 104) 2).take_profit =
      some (pyRound ((100 : ℚ) + rmDefault.risk_reward *
        (100 - max (100 - 2 * rmDefault.atr_multiplier) (1/100))) 2) :=
  claim_C4.2 rmDefault dfATR2 100 acct100k [] 2
    (SizingResult.mk 10 (some 98) (some 104) 2)
    (by norm_num [RiskManager.compute_atr, trueRangeList, trueRangeList.trueRangeTail,
      dfATR2])
    claim_C4.1 (by norm_num)

/-- C4 counterexample: with entry 100 and ATR 0.004 the formula stop is
99.996, but the sizer returns stop 100.00 (the 2-decimal rounding), so the
exact stop/target formula does not hold for every BUY input with ATR above
epsilon. -/
theorem claim_C4_counterexample :
    rmDefault.calculate_trade_parameters dfATR004 100 acct100k [] Signal.BUY =
      some { quantity := 10, stop_loss := some 100, take_profit := some (10001/100),
             atr := 1/250 } ∧
    max ((100 : ℚ) - (1/250) * rmDefault.atr_multiplier) (1/100) ≠ 100 := by
  constructor
  · norm_num [RiskManager.calculate_trade_parameters, RiskManager.compute_atr,
      trueRangeList, trueRangeList.trueRangeTail, dfATR004, sizeWithATR,
      riskStopTarget, quantity_risk_based, quantity_notional_cap, quantity_cash_cap,
      available_funds, RiskManager.validate_portfolio_risk, pyRound, roundHalfEven,
      rmDefault, acct100k, max_def, min_def]
  · norm_num [rmDefault, max_def]

/-! ## Claims C6 and C10 — ledger lemmas -/

theorem getPos_cons_self (s : String) (v : Position) (rest : List (String × Position)) :
    getPos ((s, v) :: rest) s = some v := by
  simp [getPos]

theorem getPos_append (pre rest : List (String × Position)) (s : String)
    (h : s ∉ pre.map Prod.fst) : getPos (pre ++ rest) s = getPos rest s := by
  induction pre with
  | nil => rfl
  | cons e pre ih =>
    obtain ⟨k, v⟩ := e
    simp only [List.map_cons, List.mem_cons, not_or] at h
    obtain ⟨h1, h2⟩ := h
    simp only [List.cons_append, getPos]
    rw [if_neg (fun he => h1 (he.symm))]
    exact ih h2

theorem delPos_append (pre post : List (String × Position)) (s : String) (v : Position)
    (h : s ∉ pre.map Prod.fst) : delPos (pre ++ (s, v) :: post) s = pre ++ post := by
  induction pre with
  | nil => simp [delPos]
  | cons e pre ih =>
    obtain ⟨k, w⟩ := e
    simp only [List.map_cons, List.mem_cons, not_or] at h
    obtain ⟨h1, h2⟩ := h
    simp only [List.cons_append, delPos]
    rw [if_neg (fun he => h1 (he.symm))]
    exact congrArg (fun l => (k, w) :: l) (ih h2)

theorem setPos_append (pre post : List (String × Position)) (s : String)
    (v w : Position) (h : s ∉ pre.map Prod.fst) :
    setPos (pre ++ (s, v) :: post) s w = pre ++ (s, w) :: post := by
  induction pre with
  | nil => simp [setPos]
  | cons e pre ih =>
    obtain ⟨k, u⟩ := e
    simp only [List.map_cons, List.mem_cons, not_or] at h
    obtain ⟨h1, h2⟩ := h
    simp only [List.cons_append, setPos]
    rw [if_neg (fun he => h1 (he.symm))]
    exact congrArg (fun l => (k, u) :: l) (ih h2)

/-- `_execute_sell` at the position's own average price: cash is credited by
`avg_price * quantity`, realized PnL is unchanged (the trade's PnL is exactly
0), and the appended log entry records `realized_pnl = 0`. -/
theorem executeSell_at_avg (p : PortfolioManager) (s : String) (pos : Position)
    (q : ℤ) (ts : String)
    (hpos : getPos p.positions s = some pos) (hq : ¬ pos.quantity < q) :
    executeSell p s pos.avg_price q ts =
      { p with
        cash := p.cash + pos.avg_price * q,
        positions :=
          if pos.quantity - q ≤ 0 then delPos p.positions s
          else setPos p.positions s { pos with quantity := pos.quantity - q },
        trade_log := p.trade_log ++
          [{ timestamp := ts, symbol := s, action := Signal.SELL,
             price := pos.avg_price, quantity := q, realized_pnl := some 0 }] } := by
  unfold executeSell
  rw [hpos]
  simp [if_neg hq, sub_self, pyRound_zero]

theorem eodStep_fold (ts : String) :
    ∀ (todo pre : List (String × Position)) (p : PortfolioManager),
      p.positions = pre ++ todo →
      ((pre ++ todo).map Prod.fst).Nodup →
      List.foldl (eodStep ts) p (todo.map Prod.fst) =
        { p with
          cash := p.cash + (todo.map (fun e => e.2.avg_price * (e.2.quantity : ℚ))).sum,
          positions := pre,
          trade_log := p.trade_log ++ todo.map (eodEntry ts) } := by
  intro todo
  induction todo with
  | nil =>
    intro pre p hpos _
    rw [List.append_nil] at hpos
    subst hpos
    simp
  | cons e rest ih =>
    intro pre p hpos hnodup
    obtain ⟨s, pos⟩ := e
    have hmap : (pre ++ (s, pos) :: rest).map Prod.fst =
        pre.map Prod.fst ++ s :: rest.map Prod.fst := by simp
    rw [hmap, List.nodup_append] at hnodup
    obtain ⟨hn1, hn2, hdisj⟩ := hnodup
    have hspre : s ∉ pre.map Prod.fst := fun hmem => hdisj hmem (List.mem_cons_self _ _)
    have hsrest : s ∉ rest.map Prod.fst := (List.nodup_cons.mp hn2).1
    have hget : getPos p.positions s = some pos := by
      rw [hpos, getPos_append _ _ _ hspre, getPos_cons_self]
    have hstep : eodStep ts p s =
        { p with
          cash := p.cash + pos.avg_price * (pos.quantity : ℚ),
          positions := pre ++ rest,
          trade_log := p.trade_log ++ [eodEntry ts (s, pos)] } := by
      unfold eodStep
      rw [hget]
      dsimp only
      rw [executeSell_at_avg p s pos pos.quantity ts hget (lt_irrefl _)]
      rw [if_pos (by omega : pos.quantity - pos.quantity ≤ 0)]
      rw [hpos, delPos_append _ _ _ _ hspre]
      rfl
    simp only [List.map_cons, List.foldl_cons]
    rw [hstep]
    have hnodup' : ((pre ++ rest).map Prod.fst).Nodup := by
      rw [List.map_append, List.nodup_append]
      exact ⟨hn1, (List.nodup_cons.mp hn2).2,
        fun a ha hb => hdisj ha (List.mem_cons_of_mem _ hb)⟩
    rw [ih pre _ rfl hnodup']
    simp only [List.map_cons, List.sum_cons, List.append_assoc, List.singleton_append]
    rw [add_assoc]

theorem partialStep_fold (fraction : ℚ) (ts : String) :
    ∀ (todo pre : List (String × Position)) (p : PortfolioManager),
      p.positions = pre ++ todo →
      ((pre ++ todo).map Prod.fst).Nodup →
      List.foldl (partialStep fraction ts) p (todo.map Prod.fst) =
        { p with
          cash := p.cash + (todo.map (partialCredit fraction)).sum,
          positions := pre ++ todo.filterMap (partialRemain fraction),
          trade_log := p.trade_log ++ todo.filterMap (partialEntry fraction ts) } := by
  intro todo
  induction todo with
  | nil =>
    intro pre p hpos _
    rw [List.append_nil] at hpos
    subst hpos
    simp
  | cons e rest ih =>
    intro pre p hpos hnodup
    obtain ⟨s, pos⟩ := e
    have hmap : (pre ++ (s, pos) :: rest).map Prod.fst =
        pre.map Prod.fst ++ s :: rest.map Prod.fst := by simp
    rw [hmap, List.nodup_append] at hnodup
    obtain ⟨hn1, hn2, hdisj⟩ := hnodup
    have hspre : s ∉ pre.map Prod.fst := fun hmem => hdisj hmem (List.mem_cons_self _ _)
    have hget : getPos p.positions s = some pos := by
      rw [hpos, getPos_append _ _ _ hspre, getPos_cons_self]
    have hnodupKeep : ∀ (pos' : Position),
        (((pre ++ [(s, pos')]) ++ rest).map Prod.fst).Nodup := by
      intro pos'
      have : ((pre ++ [(s, pos')]) ++ rest).map Prod.fst =
          pre.map Prod.fst ++ s :: rest.map Prod.fst := by simp
      rw [this, List.nodup_append]
      exact ⟨hn1, hn2, hdisj⟩
    have hnodupDel : ((pre ++ rest).map Prod.fst).Nodup := by
      rw [List.map_append, List.nodup_append]
      exact ⟨hn1, (List.nodup_cons.mp hn2).2,
        fun a ha hb => hdisj ha (List.mem_cons_of_mem _ hb)⟩
    simp only [List.map_cons, List.foldl_cons]
    by_cases c1 : 0 < pos.quantity
    · by_cases c2 : pyInt ((pos.quantity : ℚ) * fraction) < 1
      · -- skip: rounds below one share
        have hstep : partialStep fraction ts p s = p := by
          unfold partialStep
          rw [hget]
          dsimp only
          rw [if_pos c1, if_pos c2]
        rw [hstep, ih (pre ++ [(s, pos)]) p (by rw [hpos]; simp)
          (hnodupKeep pos)]
        have hr : partialRemain fraction (s, pos) = some (s, pos) := by
          simp [partialRemain, c1, c2]
        have he : partialEntry fraction ts (s, pos) = none := by
          simp [partialEntry, c1, c2]
        have hc : partialCredit fraction (s, pos) = 0 := by
          simp [partialCredit, c1, c2]
        simp [List.filterMap_cons, hr, he, hc]
      · by_cases c3 : pos.quantity < pyInt ((pos.quantity : ℚ) * fraction)
        · -- skip: oversell request refused by the guard in `_execute_sell`
          have hstep : partialStep fraction ts p s = p := by
            unfold partialStep
            rw [hget]
            dsimp only
            rw [if_pos c1, if_neg c2]
            unfold executeSell
            rw [hget]
            dsimp only
            rw [if_pos c3]
          rw [hstep, ih (pre ++ [(s, pos)]) p (by rw [hpos]; simp)
            (hnodupKeep pos)]
          have hr : partialRemain fraction (s, pos) = some (s, pos) := by
            simp [partialRemain, c1, c2, c3]
          have he : partialEntry fraction ts (s, pos) = none := by
            simp [partialEntry, c1, c2, c3]
          have hc : partialCredit fraction (s, pos) = 0 := by
            simp [partialCredit, c1, c2, c3]
          simp [List.filterMap_cons, hr, he, hc]
        · -- an actual sale
          have hsell := executeSell_at_avg p s pos
            (pyInt ((pos.quantity : ℚ) * fraction)) ts hget c3
          have hstep : partialStep fraction ts p s =
              executeSell p s pos.avg_price (pyInt ((pos.quantity : ℚ) * fraction)) ts := by
            unfold partialStep
            rw [hget]
            dsimp only
            rw [if_pos c1, if_neg c2]
          have he : partialEntry fraction ts (s, pos) =
              some { timestamp := ts, symbol := s, action := Signal.SELL,
                     price := pos.avg_price,
                     quantity := pyInt ((pos.quantity : ℚ) * fraction),
                     realized_pnl := some 0 } := by
            simp [partialEntry, c1, c2, c3]
          have hc : partialCredit fraction (s, pos) =
              pos.avg_price * (pyInt ((pos.quantity : ℚ) * fraction) : ℚ) := by
            simp [partialCredit, c1, c2, c3]
          by_cases c4 : pos.quantity - pyInt ((pos.quantity : ℚ) * fraction) ≤ 0
          · -- full liquidation of this position
            have hr : partialRemain fraction (s, pos) = none := by
              simp [partialRemain, c1, c2, c3, c4]
            rw [hstep, hsell, if_pos c4, hpos, delPos_append _ _ _ _ hspre]
            rw [ih pre _ rfl hnodupDel]
            simp only [List.filterMap_cons, hr, he, List.map_cons, List.sum_cons, hc,
              List.append_assoc, List.singleton_append]
            rw [add_assoc]
          · -- partial liquidation, position stays with reduced quantity
            have hr : partialRemain fraction (s, pos) =
                some (s, { pos with
                  quantity := pos.quantity - pyInt ((pos.quantity : ℚ) * fraction) }) := by
              simp [partialRemain, c1, c2, c3, c4]
            rw [hstep, hsell, if_neg c4, hpos, setPos_append _ _ _ _ _ hspre]
            rw [ih (pre ++ [(s, { pos with
                quantity := pos.quantity - pyInt ((pos.quantity : ℚ) * fraction) })])
              _ (by simp) (hnodupKeep _)]
            simp only [List.filterMap_cons, hr, he, List.map_cons, List.sum_cons, hc,
              List.append_assoc, List.singleton_append]
            rw [add_assoc]
    · -- skip: no positive quantity held
      have hstep : partialStep fraction ts p s = p := by
        unfold partialStep
        rw [hget]
        dsimp only
        rw [if_neg c1]
      rw [hstep, ih (pre ++ [(s, pos)]) p (by rw [hpos]; simp) (hnodupKeep pos)]
      have hr : partialRemain fraction (s, pos) = some (s, pos) := by
        simp [partialRemain, c1]
      have he : partialEntry fraction ts (s, pos) = none := by
        simp [partialEntry, c1]
      have hc : partialCredit fraction (s, pos) = 0 := by
        simp [partialCredit, c1]
      simp [List.filterMap_cons, hr, he, hc]

theorem partialEntry_spec (fraction : ℚ) (ts : String) (a : String × Position)
    (en : TradeLogEntry) (h : partialEntry fraction ts a = some en) :
    en.realized_pnl = some 0 ∧ en.price = a.2.avg_price := by
  unfold partialEntry at h
  dsimp only at h
  split_ifs at h
  all_goals
    first
      | exact Option.noConfusion h
      | (injection h with h5; rw [← h5]; exact ⟨rfl, rfl⟩)

/-- C10: every scheduled partial close and every end-of-day liquidation sells
at the position's own average entry price: realized PnL is unchanged by the
whole sweep, cash is credited by `avg_price × closed quantity` summed over the
closed positions, and every appended trade-log entry carries realized PnL
exactly 0 and the average price of the position it closes. -/
theorem claim_C10 (p : PortfolioManager) (fraction : ℚ) (ts ts2 : String)
    (h : (p.positions.map Prod.fst).Nodup) :
    closeAllPositions p ts =
      { p with
        cash := p.cash +
          (p.positions.map (fun e => e.2.avg_price * (e.2.quantity : ℚ))).sum,
        positions := [],
        trade_log := p.trade_log ++ p.positions.map (eodEntry ts) } ∧
    partialClose p fraction ts2 =
      { p with
        cash := p.cash + (p.positions.map (partialCredit fraction)).sum,
        positions := p.positions.filterMap (partialRemain fraction),
        trade_log := p.trade_log ++ p.positions.filterMap (partialEntry fraction ts2) } ∧
    (∀ e ∈ p.positions.map (eodEntry ts), e.realized_pnl = some 0 ∧
      ∃ a ∈ p.positions, e.price = a.2.avg_price) ∧
    (∀ e ∈ p.positions.filterMap (partialEntry fraction ts2), e.realized_pnl = some 0 ∧
      ∃ a ∈ p.positions, e.price = a.2.avg_price) := by
  refine ⟨?_, ?_, ?_, ?_⟩
  · rw [closeAllPositions]
    exact eodStep_fold ts p.positions [] p rfl h
  · rw [partialClose]
    exact partialStep_fold fraction ts2 p.positions [] p rfl h
  · intro e he
    obtain ⟨a, ha, rfl⟩ := List.mem_map.mp he
    exact ⟨rfl, a, ha, rfl⟩
  · intro e he
    obtain ⟨a, ha, hpe⟩ := List.mem_filterMap.mp he
    obtain ⟨h1, h2⟩ := partialEntry_spec fraction ts2 a e hpe
    exact ⟨h1, a, ha, h2⟩

theorem claim_C10_witness :
    (closeAllPositions pTwoPositions ("eod")).cash = 1078 ∧
    (closeAllPositions pTwoPositions ("eod")).positions = [] ∧
    (closeAllPositions pTwoPositions ("eod")).realized_pnl = 0 := by
  have h := (claim_C10 pTwoPositions (1/2) "eod" "pc" (by decide)).1
  rw [h]
  refine ⟨?_, rfl, rfl⟩
  norm_num [pTwoPositions]

/-- C6: a session that opens exactly one position and then runs end-of-day
liquidation ends with an empty positions mapping, cash equal to the pre-trade
cash plus the realized PnL of that one trade, and exactly one close entry in
the trade log carrying a non-null realized PnL. -/
theorem claim_C6 (C price : ℚ) (sym ts1 ts2 : String)
    (hC : 0 ≤ C) (hprice : 0 < price)
    (hq : 1 ≤ pyInt (min (C * (1/10)) 1000 / price)) :
    (closeAllPositions (executeTrade
        { cash := C, positions := [], trade_log := [], realized_pnl := 0 }
        sym Signal.BUY price ts1) ts2).positions = [] ∧
    ∃ r : ℚ,
      ((closeAllPositions (executeTrade
          { cash := C, positions := [], trade_log := [], realized_pnl := 0 }
          sym Signal.BUY price ts1) ts2).trade_log.filter
        (fun e => e.realized_pnl.isSome)) =
        [{ timestamp := ts2, symbol := sym, action := Signal.SELL, price := price,
           quantity := pyInt (min (C * (1/10)) 1000 / price),
           realized_pnl := some r }] ∧
      (closeAllPositions (executeTrade
          { cash := C, positions := [], trade_log := [], realized_pnl := 0 }
          sym Signal.BUY price ts1) ts2).cash = C + r := by
  set q : ℤ := pyInt (min (C * (1/10)) 1000 / price) with hqdef
  have hm : (0 : ℚ) ≤ min (C * (1/10)) 1000 := le_min (by linarith) (by norm_num)
  have hge : (0 : ℚ) ≤ min (C * (1/10)) 1000 / price := div_nonneg hm (le_of_lt hprice)
  have hfloor : (q : ℚ) ≤ min (C * (1/10)) 1000 / price := by
    rw [hqdef, pyInt, if_pos hge]
    exact Int.floor_le _
  have hafford : price * (q : ℚ) ≤ C := by
    have h1 : price * (q : ℚ) ≤ min (C * (1/10)) 1000 := by
      rw [mul_comm]
      exact (le_div_iff hprice).mp hfloor
    have h2 : min (C * (1/10)) 1000 ≤ C * (1/10) := min_le_left _ _
    linarith
  have hp1 : executeTrade
      { cash := C, positions := [], trade_log := [], realized_pnl := 0 }
      sym Signal.BUY price ts1 =
      { cash := C - price * q,
        positions := [(sym, { quantity := q,
                              avg_price := price,
                              stop_price := price * (1 - 1/50),
                              take_profit_price := price * (1 + 3/100) })],
        trade_log := [{ timestamp := ts1,
                        symbol := sym,
                        action := Signal.BUY,
                        price := price,
                        quantity := q,
                        realized_pnl := none }],
        realized_pnl := 0 } := by
    unfold executeTrade
    rw [if_neg (by rintro ⟨-, pos, hpos, -⟩; exact Option.noConfusion hpos)]
    dsimp only
    rw [if_neg (by omega)]
    rw [if_pos hafford]
    unfold executeBuy
    dsimp only
    rfl
  rw [hp1]
  have h2 := eodStep_fold ts2
    [(sym, { quantity := q,
             avg_price := price,
             stop_price := price * (1 - 1/50),
             take_profit_price := price * (1 + 3/100) })] []
    { cash := C - price * q,
      positions := [(sym, { quantity := q,
                            avg_price := price,
                            stop_price := price * (1 - 1/50),
                            take_profit_price := price * (1 + 3/100) })],
      trade_log := [{ timestamp := ts1,
                      symbol := sym,
                      action := Signal.BUY,
                      price := price,
                      quantity := q,
                      realized_pnl := none }],
      realized_pnl := 0 }
    rfl (by simp)
  rw [closeAllPositions] at *
  rw [h2]
  refine ⟨rfl, 0, ?_, ?_⟩
  · simp [List.filter, eodEntry]
  · simp only [List.map_cons, List.map_nil, List.sum_cons, List.sum_nil]
    ring

theorem claim_C6_witness :
    (closeAllPositions (executeTrade
        { cash := 100000, positions := [], trade_log := [], realized_pnl := 0 }
        ("AAPL") Signal.BUY 50 ("t1")) ("t2")).positions = [] ∧
    ∃ r : ℚ,
      ((closeAllPositions (executeTrade
          { cash := 100000, positions := [], trade_log := [], realized_pnl := 0 }
          ("AAPL") Signal.BUY 50 ("t1")) ("t2")).trade_log.filter
        (fun e => e.realized_pnl.isSome)) =
        [{ timestamp := "t2",
           symbol := "AAPL",
           action := Signal.SELL,
           price := 50,
           quantity := pyInt (min ((100000 : ℚ) * (1/10)) 1000 / 50),
           realized_pnl := some r }] ∧
      (closeAllPositions (executeTrade
          { cash := 100000, positions := [], trade_log := [], realized_pnl := 0 }
          ("AAPL") Signal.BUY 50 ("t1")) ("t2")).cash = 100000 + r :=
  claim_C6 100000 50 "AAPL" "t1" "t2" (by norm_num) (by norm_num)
    (by norm_num [pyInt, min_def])
